import Mathlib

/-!
Verification development for the Neurolous GriefBot backend
(`src/backend/main.py`), a FastAPI conversational persona server.

The Python code is shallowly embedded: pure helpers become Lean
functions, stateful endpoints become explicit state-passing functions,
and external capabilities (the Chroma vector store, the Ollama
generator, the Chatterbox speech engine, the langchain text splitter)
are modelled by explicit parameters or by list-based state, exactly as
the spec treats them (opaque capabilities).  Python exceptions are
modelled with an explicit `PyResult` type, and Python `dict`s with
insertion-ordered association lists.
-/

/-- Result of a Python call: either a raised exception (carrying its
string rendering, as used by `str(e)` at the call sites) or a value. -/
inductive PyResult (α : Type) where
  | exc (msg : String)
  | ok (v : α)
deriving DecidableEq

/-- Outcome of a FastAPI endpoint: either an `HTTPException` with a
status code and detail string, or a successful value. -/
inductive HTTPOutcome (α : Type) where
  | httpError (status : Nat) (detail : String)
  | ok (v : α)
deriving DecidableEq

/-- Status code of an endpoint outcome, if it is an error. -/
def HTTPOutcome.statusOf {α : Type} : HTTPOutcome α → Option Nat
  | .httpError s _ => some s
  | .ok _ => none

/-- Characters stripped by Python `str.strip()` with no argument
(space, tab, newline, carriage return, vertical tab, form feed). -/
def isPyWhitespace (c : Char) : Bool :=
  c == ' ' || c == '\t' || c == '\n' || c == '\r' ||
  c == Char.ofNat 11 || c == Char.ofNat 12

/-- Python `s.strip()`: remove leading and trailing whitespace. -/
def pyStrip (s : String) : String :=
  String.mk (((s.data.dropWhile isPyWhitespace).reverse.dropWhile isPyWhitespace).reverse)

/-- Truthiness of an optional string, as Python evaluates
`row.get(k)` in a boolean context: `None` and `""` are falsy. -/
def pyTruthy : Option String → Bool
  | none => false
  | some s => !s.isEmpty

/-- Python `x or y` on optional strings: `x` if truthy, else `y`. -/
def pyOr (x y : Option String) : Option String :=
  if pyTruthy x then x else y

/-- A Python `dict` with string keys and values, as an
insertion-ordered association list (keys unique by construction of
the operations below). -/
abbrev Dict := List (String × String)

/-- Python `d.get(k)` / `d[k]` lookup. -/
def dictGet : Dict → String → Option String
  | [], _ => none
  | kv :: rest, k => if kv.1 = k then some kv.2 else dictGet rest k

/-- Python `k in d`. -/
def dictContains (d : Dict) (k : String) : Bool :=
  (dictGet d k).isSome

/-- Python `d[k] = v`: replace in place if the key exists, otherwise
append at the end (insertion order preserved). -/
def dictSet : Dict → String → String → Dict
  | [], k, v => [(k, v)]
  | kv :: rest, k, v => if kv.1 = k then (k, v) :: rest else kv :: dictSet rest k v

/-!
## MD5 (model of Python `hashlib.md5(text.encode('utf-8')).hexdigest()`)

`get_voice_cache_path` keys the voice cache by the MD5 hex digest of
the input text.  `hashlib` is an external standard library; the RFC
1321 algorithm it implements is embedded here in full, over `Nat`
with explicit reduction modulo `2 ^ 32`.
-/

/-- Modulus for 32-bit words. -/
def m32 : Nat := 4294967296

/-- Bitwise complement on a 32-bit word. -/
def not32 (x : Nat) : Nat := Nat.xor x 4294967295

/-- Left rotation of a 32-bit word by `n` bits (`0 ≤ n ≤ 32`). -/
def rotl32 (x n : Nat) : Nat :=
  Nat.lor ((x * 2 ^ n) % m32) (x / 2 ^ (32 - n))

/-- UTF-8 encoding of a single character, as Python `str.encode('utf-8')`. -/
def utf8EncodeChar (c : Char) : List Nat :=
  let n := c.toNat
  if n < 128 then [n]
  else if n < 2048 then [192 + n / 64, 128 + n % 64]
  else if n < 65536 then [224 + n / 4096, 128 + (n / 64) % 64, 128 + n % 64]
  else [240 + n / 262144, 128 + (n / 4096) % 64, 128 + (n / 64) % 64, 128 + n % 64]

/-- UTF-8 bytes of a string. -/
def strBytes (s : String) : List Nat :=
  (s.data.map utf8EncodeChar).flatten

/-- The `k` low-order bytes of `n`, little-endian. -/
def leBytes : Nat → Nat → List Nat
  | _, 0 => []
  | n, k + 1 => n % 256 :: leBytes (n / 256) k

/-- Little-endian word value of a byte list. -/
def leWord (b : List Nat) : Nat :=
  b.foldr (fun x acc => x + 256 * acc) 0

/-- Chunk splitter with structural fuel (`fuel` at least the list
length makes it total on the list). -/
def chunksOfAux (k : Nat) : Nat → List Nat → List (List Nat)
  | 0, _ => []
  | _, [] => []
  | fuel + 1, x :: xs => (x :: xs).take (k + 1) :: chunksOfAux k fuel ((x :: xs).drop (k + 1))

/-- Split a byte list into chunks of `k + 1` bytes (last may be short). -/
def chunksOf (k : Nat) (l : List Nat) : List (List Nat) :=
  chunksOfAux k l.length l

/-- MD5 padding: append `0x80`, zero bytes to 56 mod 64, then the
64-bit little-endian bit length. -/
def md5pad (msg : List Nat) : List Nat :=
  msg ++ [128] ++ List.replicate ((119 - msg.length % 64) % 64) 0 ++
    leBytes (msg.length * 8) 8

/-- MD5 per-round additive constants, `floor(abs(sin(i + 1)) * 2 ^ 32)`. -/
def md5K : List Nat :=
  [0xd76aa478, 0xe8c7b756, 0x242070db, 0xc1bdceee,
   0xf57c0faf, 0x4787c62a, 0xa8304613, 0xfd469501,
   0x698098d8, 0x8b44f7af, 0xffff5bb1, 0x895cd7be,
   0x6b901122, 0xfd987193, 0xa679438e, 0x49b40821,
   0xf61e2562, 0xc040b340, 0x265e5a51, 0xe9b6c7aa,
   0xd62f105d, 0x02441453, 0xd8a1e681, 0xe7d3fbc8,
   0x21e1cde6, 0xc33707d6, 0xf4d50d87, 0x455a14ed,
   0xa9e3e905, 0xfcefa3f8, 0x676f02d9, 0x8d2a4c8a,
   0xfffa3942, 0x8771f681, 0x6d9d6122, 0xfde5380c,
   0xa4beea44, 0x4bdecfa9, 0xf6bb4b60, 0xbebfbc70,
   0x289b7ec6, 0xeaa127fa, 0xd4ef3085, 0x04881d05,
   0xd9d4d039, 0xe6db99e5, 0x1fa27cf8, 0xc4ac5665,
   0xf4292244, 0x432aff97, 0xab9423a7, 0xfc93a039,
   0x655b59c3, 0x8f0ccc92, 0xffeff47d, 0x85845dd1,
   0x6fa87e4f, 0xfe2ce6e0, 0xa3014314, 0x4e0811a1,
   0xf7537e82, 0xbd3af235, 0x2ad7d2bb, 0xeb86d391]

/-- MD5 per-round left-rotation amounts. -/
def md5S : List Nat :=
  [7, 12, 17, 22, 7, 12, 17, 22, 7, 12, 17, 22, 7, 12, 17, 22,
   5, 9, 14, 20, 5, 9, 14, 20, 5, 9, 14, 20, 5, 9, 14, 20,
   4, 11, 16, 23, 4, 11, 16, 23, 4, 11, 16, 23, 4, 11, 16, 23,
   6, 10, 15, 21, 6, 10, 15, 21, 6, 10, 15, 21, 6, 10, 15, 21]

/-- MD5 round mixing function, by round index. -/
def md5F (i b c d : Nat) : Nat :=
  if i < 16 then Nat.lor (Nat.land b c) (Nat.land (not32 b) d)
  else if i < 32 then Nat.lor (Nat.land d b) (Nat.land (not32 d) c)
  else if i < 48 then Nat.xor b (Nat.xor c d)
  else Nat.xor c (Nat.lor b (not32 d))

/-- MD5 message-word index, by round index. -/
def md5G (i : Nat) : Nat :=
  if i < 16 then i
  else if i < 32 then (5 * i + 1) % 16
  else if i < 48 then (3 * i + 5) % 16
  else (7 * i) % 16

/-- MD5 running state: four 32-bit words. -/
structure MD5State where
  a : Nat
  b : Nat
  c : Nat
  d : Nat
deriving DecidableEq

/-- One MD5 round over message words `M`. -/
def md5Round (M : List Nat) (st : MD5State) (i : Nat) : MD5State :=
  let f := (md5F i st.b st.c st.d + st.a + md5K.getD i 0 + M.getD (md5G i) 0) % m32
  ⟨st.d, (st.b + rotl32 f (md5S.getD i 0)) % m32, st.b, st.c⟩

/-- Process one 64-byte chunk. -/
def md5Chunk (st : MD5State) (chunk : List Nat) : MD5State :=
  let M := (chunksOf 3 chunk).map leWord
  let r := (List.range 64).foldl (md5Round M) st
  ⟨(st.a + r.a) % m32, (st.b + r.b) % m32, (st.c + r.c) % m32, (st.d + r.d) % m32⟩

/-- Lowercase hex digit. -/
def hexDigit (n : Nat) : Char :=
  if n < 10 then Char.ofNat (48 + n) else Char.ofNat (87 + n)

/-- Two lowercase hex digits of a byte. -/
def byteHex (b : Nat) : List Char :=
  [hexDigit (b / 16), hexDigit (b % 16)]

/-- MD5 digest of a byte list, as a 32-character lowercase hex string. -/
def md5hex (msg : List Nat) : String :=
  let st := (chunksOf 63 (md5pad msg)).foldl md5Chunk
    ⟨0x67452301, 0xefcdab89, 0x98badcfe, 0x10325476⟩
  let digest := leBytes st.a 4 ++ leBytes st.b 4 ++ leBytes st.c 4 ++ leBytes st.d 4
  String.mk ((digest.map byteHex).flatten)

/-- Python `hashlib.md5(s.encode('utf-8')).hexdigest()`. -/
def hashlib_md5_hexdigest (s : String) : String :=
  md5hex (strBytes s)

/-!
## Persona configuration (`load_persona_config` / `save_persona_config`)

The config file `./config/persona.json` is modelled as
`Option Dict` (`none` = file absent).  `load_persona_config` returns
the data read, the resulting file contents, and how many writes it
performed, so that the idempotent-migration claim is statable.
-/

/-- The default persona written on first server start (file absent). -/
def default_persona : Dict :=
  [("deceased_name", "loved one\x27s name"),
   ("user_name", "your name"),
   ("user_nickname", "ac3"),
   ("relationship", "Father"),
   ("date_of_death", "June 22, 2023"),
   ("personality_traits", "Warm, wise, philosophical."),
   ("philosophy", "The Double-You Book: Balancing Spirit (Intellect) and Will (Emotion) through the Heart."),
   ("achievements", "Retired LA County Firefighter, Air Force Veteran."),
   ("dimension", "heaven")]

/-- The schema-migration defaults iterated over inside
`load_persona_config` (the recognized schema keys, in code order). -/
def migration_defaults : Dict :=
  [("deceased_name", "Subject Name"),
   ("user_name", "User"),
   ("user_nickname", "User"),
   ("relationship", "Friend"),
   ("date_of_death", "2023"),
   ("personality_traits", "Kind, wise."),
   ("philosophy", "Stoicism"),
   ("achievements", ""),
   ("dimension", "heaven")]

/-- The `for k, v in defaults.items()` migration loop: back-fill each
missing key with its default, tracking the `needs_save` flag. -/
def backfill (defs : Dict) (acc : Dict × Bool) : Dict × Bool :=
  defs.foldl
    (fun acc kv =>
      if dictContains acc.1 kv.1 then acc else (dictSet acc.1 kv.1 kv.2, true))
    acc

/-- Result of `load_persona_config`: the data returned, the file
contents afterwards, and the number of file writes performed. -/
structure LoadResult where
  data : Dict
  file : Dict
  writes : Nat
deriving DecidableEq

/-- The `load_persona_config` function: create the default file if
absent, read it, back-fill missing recognized keys with defaults, and
persist (via `save_persona_config`) when anything was missing. -/
def load_persona_config (file : Option Dict) : LoadResult :=
  let created : Dict × Nat :=
    match file with
    | none => (default_persona, 1)
    | some d => (d, 0)
  let m := backfill migration_defaults (created.1, false)
  if m.2 then ⟨m.1, m.1, created.2 + 1⟩
  else ⟨m.1, created.1, created.2⟩

/-!
## Knowledge store and ingestion
(`process_csv_ingestion` / `process_philosophy_ingestion`)

The Chroma vector store is modelled as a list of items carrying the
document string and the metadata written by the ingestion code.  The
store adapter is external; its `get(where={"type": ...})` /
`delete(ids)` pair followed by `add_texts` is modelled as filtering
the list by type and appending, which is exactly the effect of the
Python calls on a functioning store.
-/

/-- Metadata attached to an ingested item. -/
structure Meta where
  source : String
  typ : String
  year : Option String
  raw_text : Option String
deriving DecidableEq

/-- One knowledge-store item: the stored document text plus metadata. -/
structure KItem where
  document : String
  meta : Meta
deriving DecidableEq

/-- The knowledge store contents. -/
abbrev Store := List KItem

/-- The text chosen for a CSV row:
`row.get('text_chunk') or row.get('text') or row.get('fact')`. -/
def csvRowText (row : Dict) : Option String :=
  pyOr (pyOr (dictGet row "text_chunk") (dictGet row "text")) (dictGet row "fact")

/-- The row loop of `process_csv_ingestion`: build the
document/metadata pairs, silently skipping rows without usable text. -/
def csvCollect : List Dict → List KItem
  | [] => []
  | row :: rest =>
    let text := csvRowText row
    let year := (dictGet row "year").getD "Unknown"
    if pyTruthy text then
      ⟨"passage: " ++ text.getD "", ⟨"upload", "fact", some year, some (text.getD "")⟩⟩
        :: csvCollect rest
    else csvCollect rest

/-- The `process_csv_ingestion` function over parsed rows.  The
`PyResult` input models the `try` block around file reading and CSV
parsing (`.exc` yields the generic failure code `-1`).  When at least
one document was collected, existing items of type `"fact"` are
deleted and the new ones inserted; otherwise the store is untouched
and the count is `0`. -/
def process_csv_ingestion (parsed : PyResult (List Dict)) (store : Store) : Int × Store :=
  match parsed with
  | .exc _ => (-1, store)
  | .ok rows =>
    let documents := csvCollect rows
    if documents.isEmpty then (0, store)
    else ((documents.length : Int),
          (store.filter fun it => it.meta.typ ≠ "fact") ++ documents)

/-- A philosophy chunk as stored: `"passage: " ++ chunk` with the
philosophy metadata. -/
def chunkItem (c : String) : KItem :=
  ⟨"passage: " ++ c, ⟨"upload", "philosophy", none, none⟩⟩

/-- The `process_philosophy_ingestion` function.  `extracted` is the
outcome of PDF/TXT text extraction (external `fitz` / file read,
`.exc` yields `-1`); `splitText` is the external langchain
`RecursiveCharacterTextSplitter(chunk_size=800, chunk_overlap=100)`.
Empty/whitespace extracted text yields `-2`; an empty chunk list
yields `0`; otherwise existing `"philosophy"` items are deleted and
the chunks inserted. -/
def process_philosophy_ingestion (extracted : PyResult String)
    (splitText : String → List String) (store : Store) : Int × Store :=
  match extracted with
  | .exc _ => (-1, store)
  | .ok full_text =>
    if pyStrip full_text = "" then (-2, store)
    else
      let chunks := splitText full_text
      if chunks.isEmpty then (0, store)
      else ((chunks.length : Int),
            (store.filter fun it => it.meta.typ ≠ "philosophy") ++ chunks.map chunkItem)

/-!
## Conversation turns and the streaming text chat (`chat_text`)

The `generate_stream` async generator is embedded as the trace of
observable events it produces: yielded fragments, the
`datetime.now()` read, and the SQLite insert.  The Ollama token
stream is the external generator, passed as the list of fragments it
would produce; `now` is the value the clock read returns.
-/

/-- The column values inserted into the `turns` table (the `id` is
auto-assigned by SQLite). -/
structure TurnData where
  timestamp : String
  user_msg : String
  bot_res : String
  lat : Rat
  lon : Rat
  typ : String
deriving DecidableEq

/-- Observable events of the `generate_stream` generator body. -/
inductive StreamEv where
  | yieldTok (tok : String)
  | readClock (ts : String)
  | dbInsert (t : TurnData)
deriving DecidableEq

/-- The `for chunk in stream` loop: accumulate `full_response` while
yielding each token; returns the events and the final accumulator. -/
def generateStreamLoop : List String → String → List StreamEv × String
  | [], acc => ([], acc)
  | t :: rest, acc =>
    let r := generateStreamLoop rest (acc ++ t)
    (StreamEv.yieldTok t :: r.1, r.2)

/-- Full run of the `generate_stream` body (natural completion): the
token loop, then the `datetime.now()` read, then the insert of the
turn with type `"text"` and the received geolocation. -/
def generate_stream (message : String) (lat lon : Rat) (tokens : List String)
    (now : String) : List StreamEv :=
  let r := generateStreamLoop tokens ""
  r.1 ++ [StreamEv.readClock now,
          StreamEv.dbInsert ⟨now, message, r.2, lat, lon, "text"⟩]

/-- Events executed when the client disconnects after consuming `k`
pulls: the generator is closed at its current suspension point, so
only the first `k` events ever ran. -/
def chat_text_disconnected (message : String) (lat lon : Rat) (tokens : List String)
    (now : String) (k : Nat) : List StreamEv :=
  (generate_stream message lat lon tokens now).take k

/-- Concatenation of a list of fragments in order. -/
def concatFragments : List String → String
  | [] => ""
  | t :: rest => t ++ concatFragments rest

/-!
## Image chat (`chat_image`)

The transient upload file is tracked through an explicit filesystem
(the list of existing paths).  The retrieval, generation and
database-insert calls are external and fallible; each outcome is a
`PyResult` parameter.  The single `except` clause removes the temp
file (if present) and re-raises as `HTTPException(500, str(e))`.
-/

/-- Whether a path exists (`os.path.exists`). -/
def fsExists (fs : List String) (p : String) : Bool :=
  fs.contains p

/-- Remove a path (`os.remove`). -/
def fsRemove (fs : List String) (p : String) : List String :=
  fs.erase p

/-- The `chat_image` endpoint.  `fs` is the filesystem before the
request; the result is the HTTP outcome, the filesystem afterwards,
and the `turns` table afterwards. -/
def chat_image (message filename now : String) (fs : List String)
    (searchRes : PyResult (List String)) (genRes : PyResult String)
    (dbRes : PyResult Unit) (db : List TurnData) :
    HTTPOutcome String × List String × List TurnData :=
  let temp_file := "temp_" ++ filename
  let fs1 := temp_file :: fs
  let onExc (e : String) : HTTPOutcome String × List String × List TurnData :=
    (.httpError 500 e, if fsExists fs1 temp_file then fsRemove fs1 temp_file else fs1, db)
  match searchRes with
  | .exc e => onExc e
  | .ok _ =>
    match genRes with
    | .exc e => onExc e
    | .ok bot_res =>
      match dbRes with
      | .exc e => onExc e
      | .ok _ =>
        (.ok bot_res, fsRemove fs1 temp_file,
         db ++ [⟨now, "[Image] " ++ message, bot_res, 0, 0, "image"⟩])

/-!
## Voice synthesis (`get_voice_cache_path` / `generate_voice`)

The Chatterbox engine is external: it is modelled as a record with a
fallible `gen` call producing a tensor-like waveform and a sample
rate.  The voice cache is the on-disk map from cache path to the
encoded WAV artifact.  The tensor post-processing (`squeeze`,
`* 32767`, `astype(np.int16)`) is embedded over rationals, with the
cast truncating toward zero and wrapping modulo `2 ^ 16` as numpy
does.
-/

/-- A tensor-like waveform: shape and row-major rational samples. -/
structure Tensor where
  shape : List Nat
  data : List Rat
deriving DecidableEq

/-- Torch `t.squeeze(0)`: drop the leading dimension when it is 1. -/
def squeeze0 (t : Tensor) : Tensor :=
  match t.shape with
  | 1 :: rest => ⟨rest, t.data⟩
  | _ => t

/-- Truncate a rational toward zero (C-style float-to-int cast). -/
def truncQ (q : Rat) : Int :=
  if 0 ≤ q then q.floor else -((-q).floor)

/-- Wrap an integer into the int16 range, as `astype(np.int16)`. -/
def wrapInt16 (n : Int) : Int :=
  let m := n % 65536
  if m < 32768 then m else m - 65536

/-- Scale samples by 32767 and cast to int16. -/
def quantize16 (d : List Rat) : List Int :=
  d.map fun q => wrapInt16 (truncQ (q * 32767))

/-- An encoded WAV artifact: sample rate and int16 samples. -/
structure WavFile where
  sr : Nat
  samples : List Int
deriving DecidableEq

/-- The tensor post-processing of `generate_voice`: squeeze a 3-D
batch dimension, squeeze a `(1, samples)` dimension, scale to int16
and encode at the engine sample rate. -/
def wavArtifact (sr : Nat) (wav : Tensor) : WavFile :=
  let w1 := if wav.shape.length = 3 then squeeze0 wav else wav
  let w2 := if w1.shape.length = 2 then squeeze0 w1 else w1
  ⟨sr, quantize16 w2.data⟩

/-- The external speech engine: a fallible generate call (text and
optional reference-speaker path in, waveform out) and a sample rate. -/
structure VoiceEngine where
  gen : String → Option String → PyResult Tensor
  sr : Nat

/-- The voice cache directory contents: path to artifact. -/
abbrev VoiceFs := List (String × WavFile)

/-- Lookup a cache file by path. -/
def fsLookup : VoiceFs → String → Option WavFile
  | [], _ => none
  | e :: rest, p => if e.1 = p then some e.2 else fsLookup rest p

/-- The reference speaker sample path (`SPEAKER_WAV`). -/
def SPEAKER_WAV : String := "../VoiceCloning/voice_samples/AC2_22050_Hz_16_bit_7s.wav"

/-- The voice cache directory (`VOICE_CACHE_PATH`). -/
def VOICE_CACHE_PATH : String := "./voice_cache"

/-- The `get_voice_cache_path` function:
`os.path.join(VOICE_CACHE_PATH, md5(text).hexdigest() + ".wav")`. -/
def get_voice_cache_path (text : String) : String :=
  VOICE_CACHE_PATH ++ "/" ++ hashlib_md5_hexdigest text ++ ".wav"

/-- Result of a `generate_voice` request: response, cache directory
afterwards, and how many times the engine was invoked. -/
structure VoiceResult where
  response : HTTPOutcome WavFile
  fs : VoiceFs
  engineCalls : Nat

/-- The `generate_voice` endpoint.  `engine` is `none` when the voice
engine failed to load; `speakerWavExists` is whether `SPEAKER_WAV` is
present on disk.  503 when the engine is absent, 400 on
empty/whitespace text, cache hit served from disk without touching
the engine, cache miss synthesized, post-processed, written to the
cache and served. -/
def generate_voice (engine : Option VoiceEngine) (speakerWavExists : Bool)
    (text : String) (fs : VoiceFs) : VoiceResult :=
  match engine with
  | none => ⟨.httpError 503 "Voice engine not loaded.", fs, 0⟩
  | some eng =>
    if text = "" ∨ pyStrip text = "" then
      ⟨.httpError 400 "Text parameter cannot be empty.", fs, 0⟩
    else
      let cache_path := get_voice_cache_path text
      match fsLookup fs cache_path with
      | some w => ⟨.ok w, fs, 0⟩
      | none =>
        match eng.gen text (if speakerWavExists then some SPEAKER_WAV else none) with
        | .exc e => ⟨.httpError 500 e, fs, 1⟩
        | .ok wav =>
          let art := wavArtifact eng.sr wav
          ⟨.ok art, (cache_path, art) :: fs, 1⟩

/-!
## Evals export (`export_research_json`)

One JSON entry per row of the `turns` table; the system message is
`f"You are {p['deceased_name']}."` built from the loaded persona.
The `Option` result models the `KeyError` Python would raise were the
key absent.
-/

/-- A row of the `turns` table as fetched. -/
structure TurnRow where
  id : Nat
  timestamp : String
  user_msg : String
  bot_res : String
  lat : Rat
  lon : Rat
  typ : String
deriving DecidableEq

/-- One exported entry: the role/content message list and metadata. -/
structure EvalEntry where
  messages : List (String × String)
  turn_id : Nat
  timestamp : String
  lat : Rat
  lon : Rat
deriving DecidableEq

/-- The `export_research_json` endpoint body, over the fetched rows
and the loaded persona dict. -/
def export_research_json (rows : List TurnRow) (p : Dict) : Option (List EvalEntry) :=
  match dictGet p "deceased_name" with
  | none => none
  | some name =>
    let system_prompt := "You are " ++ name ++ "."
    some (rows.map fun row =>
      ⟨[("system", system_prompt), ("user", row.user_msg), ("assistant", row.bot_res)],
       row.id, row.timestamp, row.lat, row.lon⟩)

/-- Items of a given type partition of the store. -/
def itemsOfType (store : Store) (t : String) : Store :=
  store.filter fun it => it.meta.typ = t

/-- The facts-CSV rows of the worked spec example. -/
def csvExampleRows : List Dict :=
  [[("text_chunk", "A"), ("year", "1990")], [("text", "B")], [("other", "x")]]

/-- A previously ingested fact item (raw text "C"). -/
def priorFactC : KItem :=
  ⟨"passage: C", ⟨"upload", "fact", some "Unknown", some "C"⟩⟩

/-- A store state holding the prior fact and one philosophy item. -/
def priorStore : Store :=
  [priorFactC, ⟨"passage: stoic", ⟨"upload", "philosophy", none, none⟩⟩]

/-- A concrete speech engine used to instantiate universally
quantified theorems: always produces a fixed four-sample waveform. -/
def constEngine : VoiceEngine :=
  ⟨fun _ _ => .ok ⟨[4], [0, 1/2, -1/2, 1]⟩, 22050⟩

/-!
## Validation of the MD5 embedding against RFC 1321 test vectors
-/

set_option maxRecDepth 40000

/-- RFC 1321 test vectors for the embedded MD5. -/
theorem md5_rfc1321_vectors :
    hashlib_md5_hexdigest "" = "d41d8cd98f00b204e9800998ecf8427e"
    ∧ hashlib_md5_hexdigest "abc" = "900150983cd24fb0d6963f7d28e17f72" := by
  constructor <;> decide

/-!
## Helper lemmas
-/

/-- Closed form of the token loop: it yields every token in order and
accumulates their concatenation. -/
theorem generateStreamLoop_eq (tokens : List String) : ∀ acc,
    generateStreamLoop tokens acc = (tokens.map StreamEv.yieldTok, acc ++ concatFragments tokens) := by
  induction tokens with
  | nil => intro acc; simp [generateStreamLoop, concatFragments]
  | cons t rest ih =>
    intro acc
    simp [generateStreamLoop, concatFragments, ih, String.append_assoc]

/-- Closed form of the full streaming-turn trace. -/
theorem generate_stream_eq (message : String) (lat lon : Rat) (tokens : List String)
    (now : String) :
    generate_stream message lat lon tokens now =
      tokens.map StreamEv.yieldTok ++
        [StreamEv.readClock now,
         StreamEv.dbInsert ⟨now, message, concatFragments tokens, lat, lon, "text"⟩] := by
  simp [generate_stream, generateStreamLoop_eq, String.empty_append]

/-!
## C1
-/

/-- C1: for a text chat turn whose streaming generation completes
naturally, the trace is exactly the yields of every fragment in
emission order, followed by the clock read and the insert of a turn
whose `bot_res` is the concatenation of those fragments — so the
persisted text equals the streamed text and the timestamp is assigned
after the last fragment. -/
theorem chat_text_persists_streamed_concatenation (message : String) (lat lon : Rat)
    (tokens : List String) (now : String) :
    generate_stream message lat lon tokens now =
      tokens.map StreamEv.yieldTok ++
        [StreamEv.readClock now,
         StreamEv.dbInsert ⟨now, message, concatFragments tokens, lat, lon, "text"⟩] :=
  generate_stream_eq message lat lon tokens now

/-!
## C4
-/

/-- C4: if the client disconnects after consuming at most the yielded
fragments (before the stream is exhausted), the executed trace
contains no database insert: no partial turn is ever persisted. -/
theorem chat_text_disconnect_never_persists (message : String) (lat lon : Rat)
    (tokens : List String) (now : String) (k : Nat) (hk : k ≤ tokens.length)
    (t : TurnData) :
    StreamEv.dbInsert t ∉ chat_text_disconnected message lat lon tokens now k := by
  intro hmem
  unfold chat_text_disconnected at hmem
  rw [generate_stream_eq, List.take_append_of_le_length (by simpa using hk)] at hmem
  have hmem2 := List.take_subset k _ hmem
  obtain ⟨tok, _, habs⟩ := List.mem_map.mp hmem2
  exact StreamEv.noConfusion habs

/-- Witness for C4 at a concrete disconnected turn. -/
theorem chat_text_disconnect_never_persists_witness :
    StreamEv.dbInsert ⟨"t0", "hi", "ab", 0, 0, "text"⟩ ∉
      chat_text_disconnected "hi" 0 0 ["a", "b"] "t0" 1 :=
  chat_text_disconnect_never_persists "hi" 0 0 ["a", "b"] "t0" 1 (by decide) _

/-!
## C10
-/

/-- C10: a facts-CSV ingestion whose rows yield no usable text returns
count 0 and leaves the whole store (both partitions) unchanged. -/
theorem csv_ingestion_no_text_is_frame (rows : List Dict) (store : Store)
    (h : csvCollect rows = []) :
    process_csv_ingestion (.ok rows) store = (0, store) := by
  simp [process_csv_ingestion, h]

/-- Witness for C10: a row with only unrecognized columns. -/
theorem csv_ingestion_no_text_is_frame_witness :
    process_csv_ingestion (.ok [[("other", "x")]]) priorStore = (0, priorStore) :=
  csv_ingestion_no_text_is_frame [[("other", "x")]] priorStore (by decide)

/-!
## C7
-/

/-- C7: the philosophy-ingestion error taxonomy is three-way: an
empty/whitespace extracted document returns the distinct code `-2`,
an extraction exception returns the generic code `-1`, no content
after splitting returns `0`, and these codes are pairwise distinct. -/
theorem philosophy_ingestion_error_taxonomy (splitText : String → List String)
    (store : Store) :
    (∀ ft, pyStrip ft = "" →
      process_philosophy_ingestion (.ok ft) splitText store = (-2, store))
    ∧ (∀ e, process_philosophy_ingestion (.exc e) splitText store = (-1, store))
    ∧ (∀ ft, pyStrip ft ≠ "" → splitText ft = [] →
      process_philosophy_ingestion (.ok ft) splitText store = (0, store))
    ∧ (-2 : Int) ≠ 0 ∧ (-2 : Int) ≠ -1 := by
  refine ⟨?_, ?_, ?_, by decide, by decide⟩
  · intro ft hft; simp [process_philosophy_ingestion, hft]
  · intro e; simp [process_philosophy_ingestion]
  · intro ft hft hsplit; simp [process_philosophy_ingestion, hft, hsplit]

/-- Witness for C7 at a whitespace-only document. -/
theorem philosophy_ingestion_error_taxonomy_witness :
    process_philosophy_ingestion (.ok "   ") (fun _ => []) priorStore = (-2, priorStore) :=
  (philosophy_ingestion_error_taxonomy (fun _ => []) priorStore).1 "   " (by decide)


/-!
## C2
-/

/-- Every item collected from CSV rows carries the `"fact"` type tag. -/
theorem csvCollect_typ : ∀ rows, ∀ it ∈ csvCollect rows, it.meta.typ = "fact" := by
  intro rows
  induction rows with
  | nil => intro it h; simp [csvCollect] at h
  | cons row rest ih =>
    intro it h
    simp only [csvCollect] at h
    by_cases hc : pyTruthy (csvRowText row)
    · rw [if_pos hc] at h
      rcases List.mem_cons.mp h with h1 | h1
      · subst h1; rfl
      · exact ih it h1
    · rw [if_neg hc] at h
      exact ih it h

/-- Replacing a partition: after deleting items of type `t` and
appending items all of type `t`, the `t` partition is exactly the
appended items. -/
theorem itemsOfType_replace (store : Store) (items : List KItem) (t : String)
    (hall : ∀ it ∈ items, it.meta.typ = t) :
    itemsOfType ((store.filter fun it => it.meta.typ ≠ t) ++ items) t = items := by
  unfold itemsOfType
  rw [List.filter_append]
  have h1 : (store.filter fun it => it.meta.typ ≠ t).filter (fun it => decide (it.meta.typ = t)) = [] := by
    rw [List.filter_eq_nil_iff]
    intro it hmem
    have hne := List.of_mem_filter hmem
    simp only [decide_not, Bool.not_eq_true', decide_eq_false_iff_not] at hne
    simp [hne]
  have h2 : items.filter (fun it => decide (it.meta.typ = t)) = items :=
    List.filter_eq_self.mpr (fun it hmem => by simp [hall it hmem])
  rw [h1, h2, List.nil_append]

/-- Replacing a partition leaves any other partition unchanged. -/
theorem itemsOfType_replace_other (store : Store) (items : List KItem) (t t' : String)
    (hall : ∀ it ∈ items, it.meta.typ = t) (hne : t' ≠ t) :
    itemsOfType ((store.filter fun it => it.meta.typ ≠ t) ++ items) t'
      = itemsOfType store t' := by
  unfold itemsOfType
  rw [List.filter_append]
  have h1 : items.filter (fun it => decide (it.meta.typ = t')) = [] := by
    rw [List.filter_eq_nil_iff]
    intro it hmem
    rw [hall it hmem]
    simp only [decide_eq_true_eq]
    exact fun hh => hne hh.symm
  have h2 : (store.filter fun it => it.meta.typ ≠ t).filter (fun it => decide (it.meta.typ = t'))
      = store.filter (fun it => decide (it.meta.typ = t')) := by
    rw [List.filter_filter]
    apply List.filter_congr
    intro it _
    by_cases h : it.meta.typ = t'
    · simp [h, hne]
    · simp [h]
  rw [h1, h2, List.append_nil]

/-- C2: an ingestion producing at least one item fully replaces its
own type partition (the partition afterwards is exactly the inserted
items), leaves the other partition unchanged, and returns the number
of items inserted; on the worked example the count is 2 and the prior
fact is gone from the store. -/
theorem ingestion_replace_semantics :
    (∀ rows store, csvCollect rows ≠ [] →
      itemsOfType (process_csv_ingestion (.ok rows) store).2 "fact" = csvCollect rows
      ∧ itemsOfType (process_csv_ingestion (.ok rows) store).2 "philosophy"
          = itemsOfType store "philosophy"
      ∧ (process_csv_ingestion (.ok rows) store).1 = ((csvCollect rows).length : Int))
    ∧ (∀ ft splitText store, pyStrip ft ≠ "" → splitText ft ≠ ([] : List String) →
      itemsOfType (process_philosophy_ingestion (.ok ft) splitText store).2 "philosophy"
          = (splitText ft).map chunkItem
      ∧ itemsOfType (process_philosophy_ingestion (.ok ft) splitText store).2 "fact"
          = itemsOfType store "fact"
      ∧ (process_philosophy_ingestion (.ok ft) splitText store).1
          = ((splitText ft).length : Int))
    ∧ ((process_csv_ingestion (.ok csvExampleRows) priorStore).1 = 2
      ∧ priorFactC ∉ (process_csv_ingestion (.ok csvExampleRows) priorStore).2) := by
  refine ⟨?_, ?_, by decide, by decide⟩
  · intro rows store hne
    have hval : (csvCollect rows).isEmpty = false := by
      simpa [List.isEmpty_iff] using hne
    have hstore : (process_csv_ingestion (.ok rows) store).2
        = (store.filter fun it => it.meta.typ ≠ "fact") ++ csvCollect rows := by
      simp [process_csv_ingestion, hval]
    have hcount : (process_csv_ingestion (.ok rows) store).1
        = ((csvCollect rows).length : Int) := by
      simp [process_csv_ingestion, hval]
    exact ⟨by rw [hstore]; exact itemsOfType_replace store _ "fact" (csvCollect_typ rows),
           by rw [hstore]
              exact itemsOfType_replace_other store _ "fact" "philosophy"
                (csvCollect_typ rows) (by decide),
           hcount⟩
  · intro ft splitText store hft hsplit
    have hval : (splitText ft).isEmpty = false := by
      simpa [List.isEmpty_iff] using hsplit
    have hall : ∀ it ∈ (splitText ft).map chunkItem, it.meta.typ = "philosophy" := by
      intro it hmem
      obtain ⟨c, _, hc⟩ := List.mem_map.mp hmem
      subst hc; rfl
    have hstore : (process_philosophy_ingestion (.ok ft) splitText store).2
        = (store.filter fun it => it.meta.typ ≠ "philosophy") ++ (splitText ft).map chunkItem := by
      simp [process_philosophy_ingestion, hft, hval]
    have hcount : (process_philosophy_ingestion (.ok ft) splitText store).1
        = ((splitText ft).length : Int) := by
      simp [process_philosophy_ingestion, hft, hval]
    exact ⟨by rw [hstore]; exact itemsOfType_replace store _ "philosophy" hall,
           by rw [hstore]
              exact itemsOfType_replace_other store _ "philosophy" "fact" hall (by decide),
           hcount⟩

/-- Witness for C2 on the worked example rows against the prior store. -/
theorem ingestion_replace_semantics_witness :
    itemsOfType (process_csv_ingestion (.ok csvExampleRows) priorStore).2 "fact"
      = csvCollect csvExampleRows :=
  (ingestion_replace_semantics.1 csvExampleRows priorStore (by decide)).1

/-!
## C5
-/

/-- C5: the transient image file is removed on every exit path of
`chat_image` — on success before the response is returned, and on an
exception in retrieval, generation or persistence before the error
propagates as an HTTP 500 carrying the underlying cause. -/
theorem chat_image_temp_file_discipline (message filename now : String) (fs : List String)
    (searchRes : PyResult (List String)) (genRes : PyResult String) (dbRes : PyResult Unit)
    (db : List TurnData) (hfs : ("temp_" ++ filename) ∉ fs) :
    ("temp_" ++ filename) ∉ (chat_image message filename now fs searchRes genRes dbRes db).2.1
    ∧ (∀ e, searchRes = .exc e →
        (chat_image message filename now fs searchRes genRes dbRes db).1 = .httpError 500 e)
    ∧ (∀ e docs, searchRes = .ok docs → genRes = .exc e →
        (chat_image message filename now fs searchRes genRes dbRes db).1 = .httpError 500 e)
    ∧ (∀ e docs bot, searchRes = .ok docs → genRes = .ok bot → dbRes = .exc e →
        (chat_image message filename now fs searchRes genRes dbRes db).1 = .httpError 500 e) := by
  have hex : fsExists (("temp_" ++ filename) :: fs) ("temp_" ++ filename) = true := by
    simp [fsExists]
  have herase : ("temp_" ++ filename) ∉ fsRemove (("temp_" ++ filename) :: fs) ("temp_" ++ filename) := by
    unfold fsRemove
    rw [List.erase_cons_head]
    exact hfs
  rcases searchRes with e0 | docs0
  · refine ⟨?_, ?_, ?_, ?_⟩
    · show ("temp_" ++ filename) ∉
        (if fsExists (("temp_" ++ filename) :: fs) ("temp_" ++ filename) = true
         then fsRemove (("temp_" ++ filename) :: fs) ("temp_" ++ filename)
         else ("temp_" ++ filename) :: fs)
      rw [if_pos hex]; exact herase
    · intro e h; injection h with h; subst h; rfl
    · intro e docs h; exact PyResult.noConfusion h
    · intro e docs bot h; exact PyResult.noConfusion h
  · rcases genRes with e0 | bot0
    · refine ⟨?_, ?_, ?_, ?_⟩
      · show ("temp_" ++ filename) ∉
          (if fsExists (("temp_" ++ filename) :: fs) ("temp_" ++ filename) = true
           then fsRemove (("temp_" ++ filename) :: fs) ("temp_" ++ filename)
           else ("temp_" ++ filename) :: fs)
        rw [if_pos hex]; exact herase
      · intro e h; exact PyResult.noConfusion h
      · intro e docs _ h; injection h with h; subst h; rfl
      · intro e docs bot _ h; exact PyResult.noConfusion h
    · rcases dbRes with e0 | u0
      · refine ⟨?_, ?_, ?_, ?_⟩
        · show ("temp_" ++ filename) ∉
            (if fsExists (("temp_" ++ filename) :: fs) ("temp_" ++ filename) = true
             then fsRemove (("temp_" ++ filename) :: fs) ("temp_" ++ filename)
             else ("temp_" ++ filename) :: fs)
          rw [if_pos hex]; exact herase
        · intro e h; exact PyResult.noConfusion h
        · intro e docs _ h; exact PyResult.noConfusion h
        · intro e docs bot _ _ h; injection h with h; subst h; rfl
      · refine ⟨?_, ?_, ?_, ?_⟩
        · show ("temp_" ++ filename) ∉
            fsRemove (("temp_" ++ filename) :: fs) ("temp_" ++ filename)
          exact herase
        · intro e h; exact PyResult.noConfusion h
        · intro e docs _ h; exact PyResult.noConfusion h
        · intro e docs bot _ _ h; exact PyResult.noConfusion h

/-- Witness for C5 with a failing generation call. -/
theorem chat_image_temp_file_discipline_witness :
    ("temp_" ++ "dog.png") ∉
      (chat_image "who" "dog.png" "t0" [] (.ok ["ctx"]) (.exc "model gone") (.ok ()) []).2.1 :=
  (chat_image_temp_file_discipline "who" "dog.png" "t0" [] (.ok ["ctx"]) (.exc "model gone")
    (.ok ()) [] (by decide)).1

/-!
## C9
-/

/-- C9: the evals export yields exactly one entry per row of the
turns table, two personas agreeing on `deceased_name` produce the
same export, and every entry's system message is derived solely from
that name. -/
theorem evals_export_one_entry_per_row (rows : List TurnRow) (p1 p2 : Dict) (n : String)
    (h1 : dictGet p1 "deceased_name" = some n)
    (h2 : dictGet p2 "deceased_name" = some n) :
    ∃ ds, export_research_json rows p1 = some ds
      ∧ ds.length = rows.length
      ∧ export_research_json rows p2 = some ds
      ∧ ∀ e ∈ ds, e.messages.head? = some ("system", "You are " ++ n ++ ".") := by
  refine ⟨rows.map (fun row =>
    ⟨[("system", "You are " ++ n ++ "."), ("user", row.user_msg), ("assistant", row.bot_res)],
     row.id, row.timestamp, row.lat, row.lon⟩), ?_, ?_, ?_, ?_⟩
  · simp [export_research_json, h1]
  · simp
  · simp [export_research_json, h2]
  · intro e he
    obtain ⟨row, _, hr⟩ := List.mem_map.mp he
    subst hr; rfl

/-- Witness for C9: two personas sharing the name but differing in
the relationship field export identically. -/
theorem evals_export_one_entry_per_row_witness :
    ∃ ds, export_research_json [⟨1, "2024-01-01", "hi", "hey", 0, 0, "text"⟩]
        [("deceased_name", "Ava"), ("relationship", "Mother")] = some ds
      ∧ ds.length = [(⟨1, "2024-01-01", "hi", "hey", 0, 0, "text"⟩ : TurnRow)].length
      ∧ export_research_json [⟨1, "2024-01-01", "hi", "hey", 0, 0, "text"⟩]
          [("deceased_name", "Ava"), ("relationship", "Father")] = some ds
      ∧ ∀ e ∈ ds, e.messages.head? = some ("system", "You are " ++ "Ava" ++ ".") :=
  evals_export_one_entry_per_row [⟨1, "2024-01-01", "hi", "hey", 0, 0, "text"⟩]
    [("deceased_name", "Ava"), ("relationship", "Mother")]
    [("deceased_name", "Ava"), ("relationship", "Father")] "Ava" (by decide) (by decide)

/-!
## C6
-/

/-- C6 counterexample: with the engine unavailable and empty text the
call fails with 503, not with the 400 validation error the claim
requires of every empty-text call (the engine check precedes the
validation check). -/
theorem generate_voice_unavailable_beats_validation :
    (generate_voice none false "" []).response.statusOf = some 503
    ∧ (generate_voice none false "" []).response.statusOf ≠ some 400 := by
  constructor
  · rfl
  · decide

/-- C6 amended: when the engine is loaded, empty or whitespace-only
text fails with the 400 validation error and the engine is never
invoked; when the engine is unavailable the call fails with 503 (and
the engine is likewise not invoked). -/
theorem generate_voice_validation_and_unavailable (engine : Option VoiceEngine) (sw : Bool)
    (text : String) (fs : VoiceFs) :
    (∀ eng, engine = some eng → pyStrip text = "" →
      (generate_voice engine sw text fs).response
          = .httpError 400 "Text parameter cannot be empty."
      ∧ (generate_voice engine sw text fs).engineCalls = 0)
    ∧ (engine = none →
      (generate_voice engine sw text fs).response
          = .httpError 503 "Voice engine not loaded."
      ∧ (generate_voice engine sw text fs).engineCalls = 0) := by
  constructor
  · intro eng he hstrip
    subst he
    have hres : generate_voice (some eng) sw text fs
        = ⟨.httpError 400 "Text parameter cannot be empty.", fs, 0⟩ := by
      simp only [generate_voice]
      rw [if_pos (Or.inr hstrip)]
    exact ⟨by rw [hres], by rw [hres]⟩
  · intro he
    subst he
    exact ⟨rfl, rfl⟩

/-- Witness for the amended C6 at whitespace-only text with a loaded
engine. -/
theorem generate_voice_validation_and_unavailable_witness :
    (generate_voice (some constEngine) false "   " []).response
        = .httpError 400 "Text parameter cannot be empty."
    ∧ (generate_voice (some constEngine) false "   " []).engineCalls = 0 :=
  (generate_voice_validation_and_unavailable (some constEngine) false "   " []).1
    constEngine rfl (by decide)

/-!
## C3
-/

/-- C3: the voice cache key is a deterministic function of the text
alone, and once a synthesis request for `text` has succeeded, an
identical second request is served byte-identically from the cache
with the engine not invoked and the cache unchanged. -/
theorem voice_cache_deterministic_hit :
    (∀ t1 t2 : String, t1 = t2 → get_voice_cache_path t1 = get_voice_cache_path t2)
    ∧ (∀ eng sw text fs w,
        (generate_voice (some eng) sw text fs).response = .ok w →
        generate_voice (some eng) sw text (generate_voice (some eng) sw text fs).fs
          = ⟨.ok w, (generate_voice (some eng) sw text fs).fs, 0⟩) := by
  constructor
  · intro t1 t2 h; rw [h]
  · intro eng sw text fs w hok
    by_cases hempty : text = "" ∨ pyStrip text = ""
    · exfalso
      have hres : generate_voice (some eng) sw text fs
          = ⟨.httpError 400 "Text parameter cannot be empty.", fs, 0⟩ := by
        simp only [generate_voice]
        rw [if_pos hempty]
      rw [hres] at hok
      exact HTTPOutcome.noConfusion hok
    · rcases hcache : fsLookup fs (get_voice_cache_path text) with _ | w0
      · rcases hgen : eng.gen text (if sw then some SPEAKER_WAV else none) with e | wav
        · exfalso
          have hres : generate_voice (some eng) sw text fs = ⟨.httpError 500 e, fs, 1⟩ := by
            simp only [generate_voice, hcache, hgen]
            rw [if_neg hempty]
          rw [hres] at hok
          exact HTTPOutcome.noConfusion hok
        · have hres : generate_voice (some eng) sw text fs
              = ⟨.ok (wavArtifact eng.sr wav),
                 (get_voice_cache_path text, wavArtifact eng.sr wav) :: fs, 1⟩ := by
            simp only [generate_voice, hcache, hgen]
            rw [if_neg hempty]
          have hw : wavArtifact eng.sr wav = w := by
            rw [hres] at hok
            injection hok
          subst hw
          rw [hres]
          have hlook : fsLookup ((get_voice_cache_path text, wavArtifact eng.sr wav) :: fs)
              (get_voice_cache_path text) = some (wavArtifact eng.sr wav) := by
            unfold fsLookup
            rw [if_pos rfl]
          show generate_voice (some eng) sw text
              ((get_voice_cache_path text, wavArtifact eng.sr wav) :: fs)
            = ⟨.ok (wavArtifact eng.sr wav),
               (get_voice_cache_path text, wavArtifact eng.sr wav) :: fs, 0⟩
          simp only [generate_voice, hlook]
          rw [if_neg hempty]
      · have hres : generate_voice (some eng) sw text fs = ⟨.ok w0, fs, 0⟩ := by
          simp only [generate_voice, hcache]
          rw [if_neg hempty]
        have hw : w0 = w := by
          rw [hres] at hok
          injection hok
        subst hw
        rw [hres]
        exact hres

/-- Witness for C3: a concrete request served again byte-identically. -/
theorem voice_cache_deterministic_hit_witness :
    generate_voice (some constEngine) false "hello"
        (generate_voice (some constEngine) false "hello"
          [(get_voice_cache_path "hello", ⟨22050, [1, 2, 3]⟩)]).fs
      = ⟨.ok ⟨22050, [1, 2, 3]⟩,
         (generate_voice (some constEngine) false "hello"
           [(get_voice_cache_path "hello", ⟨22050, [1, 2, 3]⟩)]).fs, 0⟩ :=
  voice_cache_deterministic_hit.2 constEngine false "hello"
    [(get_voice_cache_path "hello", ⟨22050, [1, 2, 3]⟩)] ⟨22050, [1, 2, 3]⟩ (by decide)

/-!
## C8
-/

/-- Lookup after a dict assignment. -/
theorem dictGet_dictSet (d : Dict) (kp v k : String) :
    dictGet (dictSet d kp v) k = if kp = k then some v else dictGet d k := by
  induction d with
  | nil => simp [dictSet, dictGet]
  | cons kv rest ih =>
    by_cases h1 : kv.1 = kp
    · subst h1
      simp only [dictSet, if_pos rfl]
      by_cases h2 : kv.1 = k
      · simp [dictGet, h2]
      · simp [dictGet, h2]
    · simp only [dictSet, if_neg h1, dictGet]
      by_cases h2 : kv.1 = k
      · have h3 : kp ≠ k := fun hh => h1 (h2.trans hh.symm)
        simp [h2, h3]
      · simp [h2, ih]

/-- Unfolding the migration loop one step. -/
theorem backfill_cons (d0 : String × String) (rest : Dict) (accD : Dict) (b : Bool) :
    backfill (d0 :: rest) (accD, b)
      = backfill rest
          (if dictContains accD d0.1 then (accD, b) else (dictSet accD d0.1 d0.2, true)) := rfl

/-- Once the save flag is set it stays set. -/
theorem backfill_flag (defs : Dict) : ∀ accD : Dict, (backfill defs (accD, true)).2 = true := by
  induction defs with
  | nil => intro accD; rfl
  | cons d0 rest ih =>
    intro accD
    rw [backfill_cons]
    by_cases hc : dictContains accD d0.1 = true
    · rw [if_pos hc]; exact ih accD
    · rw [if_neg hc]; exact ih _

/-- A recognized key missing from the starting dict sets the save flag. -/
theorem backfill_missing (defs : Dict) : ∀ (accD : Dict) (b : Bool) (kv : String × String),
    kv ∈ defs → dictContains accD kv.1 = false → (backfill defs (accD, b)).2 = true := by
  induction defs with
  | nil => intro accD b kv h; simp at h
  | cons d0 rest ih =>
    intro accD b kv hmem hmiss
    rw [backfill_cons]
    by_cases hc : dictContains accD d0.1 = true
    · rw [if_pos hc]
      rcases List.mem_cons.mp hmem with h | h
      · subst h
        simp [hmiss] at hc
      · exact ih accD b kv h hmiss
    · rw [if_neg hc]
      exact backfill_flag rest _

/-- Keys outside the defaults list are untouched by the migration. -/
theorem backfill_get_notin (defs : Dict) : ∀ (accD : Dict) (b : Bool) (k : String),
    k ∉ defs.map Prod.fst →
    dictGet (backfill defs (accD, b)).1 k = dictGet accD k := by
  induction defs with
  | nil => intro accD b k _; rfl
  | cons d0 rest ih =>
    intro accD b k h
    simp only [List.map_cons, List.mem_cons, not_or] at h
    obtain ⟨h0, hrest⟩ := h
    rw [backfill_cons]
    by_cases hc : dictContains accD d0.1 = true
    · rw [if_pos hc]
      exact ih accD b k hrest
    · rw [if_neg hc]
      rw [ih _ true k hrest, dictGet_dictSet, if_neg (fun hh => h0 hh.symm)]

/-- After the migration loop, every recognized key holds its original
value when it was present and its default when it was missing. -/
theorem backfill_get (defs : Dict) : ∀ (accD : Dict) (b : Bool),
    (defs.map Prod.fst).Nodup →
    ∀ kv ∈ defs, dictGet (backfill defs (accD, b)).1 kv.1
      = some ((dictGet accD kv.1).getD kv.2) := by
  induction defs with
  | nil => intro accD b _ kv h; simp at h
  | cons d0 rest ih =>
    intro accD b hnd kv hmem
    simp only [List.map_cons, List.nodup_cons] at hnd
    obtain ⟨hnotin, hndrest⟩ := hnd
    rw [backfill_cons]
    rcases List.mem_cons.mp hmem with h | h
    · subst h
      by_cases hc : dictContains accD kv.1 = true
      · rw [if_pos hc, backfill_get_notin rest accD b kv.1 hnotin]
        unfold dictContains at hc
        rcases hval : dictGet accD kv.1 with _ | v
        · rw [hval] at hc; simp at hc
        · simp [hval]
      · rw [if_neg hc, backfill_get_notin rest _ true kv.1 hnotin]
        have hnone : dictGet accD kv.1 = none := by
          unfold dictContains at hc
          rcases hval : dictGet accD kv.1 with _ | v
          · rfl
          · rw [hval] at hc; simp at hc
        rw [dictGet_dictSet, if_pos rfl, hnone]
        rfl
    · have hne : d0.1 ≠ kv.1 := by
        intro hh
        exact hnotin (hh ▸ List.mem_map.mpr ⟨kv, h, rfl⟩)
      by_cases hc : dictContains accD d0.1 = true
      · rw [if_pos hc]
        exact ih accD b hndrest kv h
      · rw [if_neg hc]
        rw [ih _ true hndrest kv h, dictGet_dictSet, if_neg hne]

/-- A start dict already containing all recognized keys makes the
migration loop a no-op. -/
theorem backfill_all_present (defs : Dict) : ∀ (accD : Dict) (b : Bool),
    (∀ kv ∈ defs, dictContains accD kv.1 = true) → backfill defs (accD, b) = (accD, b) := by
  induction defs with
  | nil => intro accD b _; rfl
  | cons d0 rest ih =>
    intro accD b hall
    rw [backfill_cons, if_pos (hall d0 (List.mem_cons_self d0 rest)), ih accD b]
    intro kv h
    exact hall kv (List.mem_cons_of_mem d0 h)

/-- Unfolding `load_persona_config` on an existing file. -/
theorem load_persona_config_some (d : Dict) :
    load_persona_config (some d)
      = if (backfill migration_defaults (d, false)).2 = true
        then ⟨(backfill migration_defaults (d, false)).1,
              (backfill migration_defaults (d, false)).1, 1⟩
        else ⟨(backfill migration_defaults (d, false)).1, d, 0⟩ := rfl

/-- C8: a persona load on a file missing some recognized keys
returns a migrated mapping in which every present key keeps its
original value and every missing recognized key is back-filled with
its default, persists exactly that mapping with exactly one write,
leaves all recognized keys present, and a second load of the
persisted file returns the identical mapping with no write. -/
theorem persona_load_idempotent_migration (d : Dict)
    (hmiss : ∃ kv ∈ migration_defaults, dictContains d kv.1 = false) :
    ∃ migrated : Dict,
      load_persona_config (some d) = ⟨migrated, migrated, 1⟩
      ∧ (∀ kv ∈ migration_defaults,
          dictGet migrated kv.1 = some ((dictGet d kv.1).getD kv.2))
      ∧ (∀ kv ∈ migration_defaults, dictContains migrated kv.1 = true)
      ∧ load_persona_config (some migrated) = ⟨migrated, migrated, 0⟩ := by
  obtain ⟨kv0, hkv0mem, hkv0miss⟩ := hmiss
  have hflag : (backfill migration_defaults (d, false)).2 = true :=
    backfill_missing migration_defaults d false kv0 hkv0mem hkv0miss
  have hnd : (migration_defaults.map Prod.fst).Nodup := by decide
  have hget := backfill_get migration_defaults d false hnd
  have hcontains : ∀ kv ∈ migration_defaults,
      dictContains (backfill migration_defaults (d, false)).1 kv.1 = true := by
    intro kv h
    unfold dictContains
    rw [hget kv h]
    rfl
  refine ⟨(backfill migration_defaults (d, false)).1, ?_, hget, hcontains, ?_⟩
  · rw [load_persona_config_some d, if_pos hflag]
  · have hall := backfill_all_present migration_defaults
      (backfill migration_defaults (d, false)).1 false hcontains
    rw [load_persona_config_some _, hall, if_neg (by simp)]

/-- Witness for C8: a file holding only the deceased name. -/
theorem persona_load_idempotent_migration_witness :
    ∃ migrated : Dict,
      load_persona_config (some [("deceased_name", "Dad")]) = ⟨migrated, migrated, 1⟩
      ∧ (∀ kv ∈ migration_defaults,
          dictGet migrated kv.1
            = some ((dictGet [("deceased_name", "Dad")] kv.1).getD kv.2))
      ∧ (∀ kv ∈ migration_defaults, dictContains migrated kv.1 = true)
      ∧ load_persona_config (some migrated) = ⟨migrated, migrated, 0⟩ :=
  persona_load_idempotent_migration [("deceased_name", "Dad")]
    ⟨("user_name", "User"), by decide, by decide⟩
